import Mathlib

/-!
Verification development for the fetch-builder repository.

The repository contains two generations of the library:

* a Flow-based request-descriptor builder (`src/index.js`, and the unnamed
  source files holding the `Fetcher`, `Loader` and `Repository` classes):
  URL-template serialization (`createSerializeParams` / `regExpMapString`),
  header merging (`mergeHeaders`), the immutable `Fetcher` builder with its
  `copy` operation, and result caching;
* a TypeScript plugin-chain implementation (`packages/fetch-builder/src`):
  `PluginManager`, `FetcherResponse`, `Fetcher`, `HttpError`, `ErrorPlugin`.

Everything below is a shallow embedding of that code.  JavaScript objects are
modelled as insertion-ordered association lists with unique keys (`StrDict`),
JavaScript truthiness of optional strings is modelled by `isTruthy`, and the
single mutable-aliasing effect exercised by the claims (the headers object
shared between a descriptor and its copy) is tracked explicitly by `copyF`.
-/

set_option autoImplicit false

/-- A JavaScript plain object with string keys and string values, modelled as
an insertion-ordered association list.  All operations below mirror the
JavaScript object semantics (unique keys; an update keeps the original key
position; a new key is appended at the end). -/
abbrev StrDict := List (String × String)

/-- Property lookup, `d[k]`. -/
def objGet (d : StrDict) (k : String) : Option String :=
  (d.find? (fun p => p.1 == k)).map (fun p => p.2)

/-- Property assignment, `d[k] = v`: replaces the value in place when the key
exists, otherwise appends the new entry. -/
def objSet (d : StrDict) (k v : String) : StrDict :=
  if (d.find? (fun p => p.1 == k)).isSome then
    d.map (fun p => if p.1 == k then (k, v) else p)
  else
    d ++ [(k, v)]

/-- Property deletion, `delete d[k]`. -/
def objDelete (d : StrDict) (k : String) : StrDict :=
  d.filter (fun p => p.1 != k)

/-- Object spread `\x7b...a, ...b\x7d`: entries of `b` override entries of `a`
per key, keys absent in `b` are kept. -/
def objSpread (a b : StrDict) : StrDict :=
  b.foldl (fun acc p => objSet acc p.1 p.2) a

/-- JavaScript truthiness of an optional string value: `null`/`undefined` and
the empty string are falsy, every other string is truthy. -/
def isTruthy : Option String → Bool
  | Option.none => false
  | some s => s != ""

/-- `if (x) o.f = x` / `x || null`: keep an optional string only when truthy. -/
def optTruthy (o : Option String) : Option String :=
  match o with
  | some s => if s = "" then Option.none else some s
  | Option.none => Option.none

/-- `x || d` for an optional string `x` and a default `d`. -/
def jsOr (o : Option String) (d : String) : String :=
  match o with
  | some s => if s = "" then d else s
  | Option.none => d

/-- The error values raised by the embedded code. -/
inductive JsErr where
  /-- The Error raised by regExpMapString: no parameter provided for a
  placeholder key. -/
  | missingParam (key : String)
  /-- A configuration TypeError/Error (params without serializer, or a chain
  without a fetch-capable stage). -/
  | configError (msg : String)
  /-- A SyntaxError raised by JSON.parse on an unparseable body. -/
  | parseError
  /-- A normalized HttpError value (the TypeScript implementation). -/
  | httpError (status : Option Nat) (id : String) (code : Option String)
      (userMessage : Option String) (message : String)
deriving DecidableEq

/-! ## mergeHeaders (src/index.js lines 172-201 and its twin in the unnamed
Flow sources)

The function supports two representations.  When the global `Headers` class is
absent, the result is a plain object built with spreads; when it is present,
the result is a `Headers` instance populated with `Headers.append`. -/

/-- mergeHeaders in the plain-object environment: `result = \x7b\x7d`, then for
each non-null input set, `result = \x7b...result, ...headers\x7d`.  `none`
models a null/non-object input, which is skipped. -/
def mergeHeadersPlain (sets : List (Option StrDict)) : StrDict :=
  sets.foldl
    (fun result h =>
      match h with
      | Option.none => result
      | some hs => objSpread result hs)
    []

/-- ASCII lowercasing of a header name (whatwg byte-lowercase
normalization). -/
def lowerChar (c : Char) : Char :=
  if c.isUpper then Char.ofNat (c.toNat + 32) else c

/-- ASCII lowercasing of a header name. -/
def lowerStr (s : String) : String :=
  String.mk (s.toList.map lowerChar)

/-- The whatwg `Headers` multimap: entries keyed by lowercased names.
`append` combines with an existing header value using a comma-space
separator instead of overwriting it. -/
def headersAppend (h : List (String × String)) (name v : String) :
    List (String × String) :=
  let n := lowerStr name
  if (h.find? (fun p => p.1 == n)).isSome then
    h.map (fun p => if p.1 == n then (n, p.2 ++ ", " ++ v) else p)
  else
    h ++ [(n, v)]

/-- `Headers.get`: the combined value for a name, or null. -/
def headersGet (h : List (String × String)) (name : String) : Option String :=
  (h.find? (fun p => p.1 == lowerStr name)).map (fun p => p.2)

/-- mergeHeaders in the Headers-supported environment: `result = new
Headers()`, then every entry of every non-null input set is fed to
`result.append(name, value)`. -/
def mergeHeadersH (sets : List (Option StrDict)) : List (String × String) :=
  sets.foldl
    (fun result h =>
      match h with
      | Option.none => result
      | some hs => hs.foldl (fun r p => headersAppend r p.1 p.2) result)
    []

/-! ## URL template serialization (createSerializeParams / regExpMapString)

`regExpMapString` runs `template.replace(/:(\w+)/g, cb)` where the callback
checks `!params[k]`, deletes the key from a working copy and substitutes the
value.  The global-regexp replacement is embedded as a tokenizer producing
literal characters and placeholder keys, followed by a rendering pass that
performs exactly the callback's effects in match order. -/

/-- A character of the `\w` class matched by the default placeholder pattern
`:(\w+)` (ASCII letters, digits and underscore). -/
def wordChar (c : Char) : Bool :=
  c.isAlpha || c.isDigit || c == '_'

/-- One token of a URL template: a literal character or a placeholder key. -/
inductive Tok where
  | lit (c : Char)
  | ph (key : String)
deriving DecidableEq

/-- Closes a placeholder accumulator: an empty run after a colon means the
colon did not start a match and stays literal. -/
def closeTok (acc : List Char) : List Tok :=
  if acc.isEmpty then [Tok.lit ':'] else [Tok.ph (String.mk acc.reverse)]

/-- Single-pass scanner for the pattern `:(\w+)` applied globally.  The second
argument is `some acc` while inside a candidate placeholder (accumulated in
reverse). -/
def tokenizeAux : List Char → Option (List Char) → List Tok
  | [], Option.none => []
  | [], some acc => closeTok acc
  | c :: rest, some acc =>
      if wordChar c then tokenizeAux rest (some (c :: acc))
      else
        closeTok acc ++
          (if c == ':' then tokenizeAux rest (some [])
           else Tok.lit c :: tokenizeAux rest Option.none)
  | c :: rest, Option.none =>
      if c == ':' then tokenizeAux rest (some [])
      else Tok.lit c :: tokenizeAux rest Option.none

/-- Tokenize a template into literals and `:(\w+)` placeholders. -/
def tokenize (tpl : List Char) : List Tok :=
  tokenizeAux tpl Option.none

/-- The placeholder keys of a token list, in match order. -/
def phKeys : List Tok → List String
  | [] => []
  | Tok.lit _ :: ts => phKeys ts
  | Tok.ph k :: ts => k :: phKeys ts

/-- The placeholder keys of a template, in match order. -/
def placeholders (tpl : List Char) : List String :=
  phKeys (tokenize tpl)

/-- The rendering pass of `regExpMapString`: for each placeholder, the
callback checks `!params[k]` (absent or empty-string values throw), deletes
the key from the working copy `np` and substitutes the value from the original
`params`. Returns the substituted string together with the remaining
(unconsumed) working parameters. -/
def renderToks : List Tok → StrDict → StrDict → Except JsErr (String × StrDict)
  | [], _, np => Except.ok ("", np)
  | Tok.lit c :: ts, params, np =>
      (renderToks ts params np).map (fun r => (String.mk [c] ++ r.1, r.2))
  | Tok.ph k :: ts, params, np =>
      match objGet params k with
      | some v =>
          if v = "" then Except.error (JsErr.missingParam k)
          else
            (renderToks ts params (objDelete np k)).map
              (fun r => (v ++ r.1, r.2))
      | Option.none => Except.error (JsErr.missingParam k)

/-- regExpMapString with the default placeholder pattern: copies the params,
replaces every placeholder and returns the substituted string and the
leftover params. -/
def regExpMapString (template : String) (params : StrDict) :
    Except JsErr (String × StrDict) :=
  renderToks (tokenize template.toList) params params

/-- The serializer produced by `createSerializeParams stringify`:
substitutes placeholders, then appends the stringified leftover params as a
question-mark-prefixed query string only when non-empty. -/
def createSerializeParams (stringify : StrDict → String) (url : String)
    (params : StrDict) : Except JsErr String :=
  (regExpMapString url params).map (fun r =>
    let qStr := stringify r.2
    r.1 ++ (if qStr = "" then "" else "?" ++ qStr))

/-- Specification-level substitution: every placeholder replaced by its value
(defaulting to the empty string), literals kept. -/
def renderSpec : List Tok → StrDict → String
  | [], _ => ""
  | Tok.lit c :: ts, params => String.mk [c] ++ renderSpec ts params
  | Tok.ph k :: ts, params => ((objGet params k).getD "") ++ renderSpec ts params

/-- Deleting a list of keys from a working copy of the params. -/
def removeKeys (d : StrDict) (ks : List String) : StrDict :=
  ks.foldl objDelete d

/-- A querystring-style stringifier (the shape of `querystring.stringify`
used by the repository's tests), injected as the external `stringify`. -/
def qsStringify (d : StrDict) : String :=
  String.intercalate "&" (d.map (fun p => p.1 ++ "=" ++ p.2))

/-! ## The Flow `Fetcher` builder (unnamed source with the Loader/Repository
classes; the constructor body is shared verbatim with src/index.js)

The descriptor is immutable except for one effect: the headers object stored
in `options.headers` is aliased between a descriptor and the record passed to
the constructor by `copy` whenever the override carries no `headers` field,
and the constructor mutates that object in place (Content-Type injection)
when the body is a `URLSearchParams` value.  `copyF` therefore returns, next
to the new descriptor, the content of the source descriptor's headers object
after the call. -/

/-- A request body.  A plain object is represented by its JSON serialization
(`JSON.stringify` is an external collaborator). -/
inductive BodyVal where
  | none
  | str (s : String)
  | blob
  | formData
  | urlSearchParams (entries : StrDict)
  | obj (json : String)
deriving DecidableEq

/-- JSON.stringify applied to a plain-object body. -/
def jsonStringify : BodyVal → String
  | BodyVal.obj j => j
  | _ => ""

/-- Whether `body && typeof body === 'object'` holds and the value is a
URLSearchParams instance. -/
def bodyIsUSP : BodyVal → Bool
  | BodyVal.urlSearchParams _ => true
  | _ => false

/-- `isPlainObject`: an object body that is neither FormData, Blob nor
URLSearchParams. -/
def bodyIsPlainObject : BodyVal → Bool
  | BodyVal.obj _ => true
  | _ => false

/-- The RequestOptions record stored on a descriptor.  Fields that the
constructor only sets when truthy are `Option`s (absent = `none`). -/
structure ROptions where
  body : BodyVal := BodyVal.none
  headers : StrDict := []
  cache : Option String := Option.none
  credentials : Option String := Option.none
  integrity : Option String := Option.none
  method : Option String := Option.none
  mode : Option String := Option.none
  redirect : Option String := Option.none
  referrer : Option String := Option.none
  referrerPolicy : Option String := Option.none
deriving DecidableEq

/-- The constructor/`copy` argument record (`FetcherRec`).  `Option.none`
models an absent field; `V` is the value type the composable `postProcess`
acts on. -/
structure FetcherRec (V : Type) where
  baseUrl : Option String := Option.none
  url : Option String := Option.none
  params : Option StrDict := Option.none
  serializeParams : Option (String → StrDict → Except JsErr String) := Option.none
  postProcess : Option (V → V) := Option.none
  body : Option BodyVal := Option.none
  cache : Option String := Option.none
  credentials : Option String := Option.none
  headers : Option StrDict := Option.none
  integrity : Option String := Option.none
  method : Option String := Option.none
  mode : Option String := Option.none
  redirect : Option String := Option.none
  referrer : Option String := Option.none
  referrerPolicy : Option String := Option.none

/-- The immutable descriptor produced by the constructor.  `ref` models the
object identity produced by `new` (each construction uses a fresh value). -/
structure FetcherModel (V : Type) where
  ref : Nat
  baseUrl : String
  url : String
  serializeParams : Option (String → StrDict → Except JsErr String)
  params : Option StrDict
  options : ROptions
  fullUrl : String
  postProcess : V → V

instance : Inhabited ROptions := ⟨{}⟩

instance (V : Type) : Inhabited (FetcherModel V) :=
  ⟨{ ref := 0, baseUrl := "/", url := "", serializeParams := Option.none,
     params := Option.none, options := {}, fullUrl := "/",
     postProcess := fun v => v }⟩

/-- The Content-Type value injected for URLSearchParams bodies. -/
def ctFormUrlencoded : String := "application/x-www-form-urlencoded;charset=utf-8"

/-- The headers value computed by the constructor: `rec.headers || \x7b\x7d`,
then, when the body is a URLSearchParams value and no truthy Content-Type is
present, the urlencoded Content-Type is assigned in place (mutating the
passed-in object). -/
def mkHeaders {V : Type} (rec : FetcherRec V) : StrDict :=
  let headers0 := rec.headers.getD []
  if bodyIsUSP (rec.body.getD BodyVal.none)
      && !(isTruthy (objGet headers0 "Content-Type")) then
    objSet headers0 "Content-Type" ctFormUrlencoded
  else headers0

/-- The options record built by the constructor: the body is JSON-stringified
when it is a plain object, and the remaining RequestOptions fields are set
only when truthy. -/
def mkOptions {V : Type} (rec : FetcherRec V) : ROptions :=
  let body := rec.body.getD BodyVal.none
  { body := if bodyIsPlainObject body then BodyVal.str (jsonStringify body) else body
    headers := mkHeaders rec
    cache := optTruthy rec.cache
    credentials := optTruthy rec.credentials
    integrity := optTruthy rec.integrity
    method := optTruthy rec.method
    mode := optTruthy rec.mode
    redirect := optTruthy rec.redirect
    referrer := optTruthy rec.referrer
    referrerPolicy := optTruthy rec.referrerPolicy }

/-- The fullUrl computation of the constructor: with truthy params, a missing
serializer is a configuration TypeError, otherwise
`fullUrl = baseUrl + serializeParams(url, params)`; without params it is
`baseUrl + url`. -/
def computeFullUrl {V : Type} (rec : FetcherRec V) : Except JsErr String :=
  let baseUrl := jsOr rec.baseUrl "/"
  let url := rec.url.getD ""
  match rec.params with
  | some p =>
      match rec.serializeParams with
      | Option.none =>
          Except.error (JsErr.configError
            "params exists, but no serializeParams method provided")
      | some sp => (sp url p).map (fun s => baseUrl ++ s)
  | Option.none => Except.ok (baseUrl ++ url)

/-- Assembles the descriptor fields from a constructor record and the
computed full URL. -/
def mkFetcher {V : Type} (ref : Nat) (rec : FetcherRec V) (fullUrl : String) :
    FetcherModel V :=
  { ref := ref
    baseUrl := jsOr rec.baseUrl "/"
    url := rec.url.getD ""
    serializeParams := rec.serializeParams
    params := rec.params
    options := mkOptions rec
    fullUrl := fullUrl
    postProcess := rec.postProcess.getD (fun v => v) }

/-- `new Fetcher(rec)`, allocated with identity `ref`. -/
def construct {V : Type} (ref : Nat) (rec : FetcherRec V) :
    Except JsErr (FetcherModel V) :=
  (computeFullUrl rec).map (mkFetcher ref rec)

/-- The record that `copy` passes to `new this.constructor(...)`: the object
literal spreads `this.options` and the override `rec`, then overrides
`postProcess` (function composition `arg => rec.pp(this.pp(arg))`), `params`
(shallow merge, override keys win) and `headers` (mergeHeaders when the
override carries headers, else the source headers object itself). -/
def copyRec {V : Type} (a : FetcherModel V) (rec : FetcherRec V) : FetcherRec V :=
  { baseUrl := some (rec.baseUrl.getD a.baseUrl)
    url := some (rec.url.getD a.url)
    params :=
      match a.params with
      | some ap => some (objSpread ap (rec.params.getD []))
      | Option.none => rec.params
    serializeParams :=
      match rec.serializeParams with
      | some sp => some sp
      | Option.none => a.serializeParams
    postProcess :=
      some (match rec.postProcess with
            | some f => fun x => f (a.postProcess x)
            | Option.none => a.postProcess)
    body := some (rec.body.getD a.options.body)
    cache :=
      match rec.cache with
      | some c => some c
      | Option.none => a.options.cache
    credentials :=
      match rec.credentials with
      | some c => some c
      | Option.none => a.options.credentials
    headers :=
      some (match rec.headers with
            | some h => mergeHeadersPlain [some a.options.headers, some h]
            | Option.none => a.options.headers)
    integrity :=
      match rec.integrity with
      | some c => some c
      | Option.none => a.options.integrity
    method :=
      match rec.method with
      | some c => some c
      | Option.none => a.options.method
    mode :=
      match rec.mode with
      | some c => some c
      | Option.none => a.options.mode
    redirect :=
      match rec.redirect with
      | some c => some c
      | Option.none => a.options.redirect
    referrer :=
      match rec.referrer with
      | some c => some c
      | Option.none => a.options.referrer
    referrerPolicy :=
      match rec.referrerPolicy with
      | some c => some c
      | Option.none => a.options.referrerPolicy }

/-- The result of `a.copy(rec)`: the new descriptor plus the content of the
object referenced by `a.options.headers` after the call.  When the override
carries no headers, the constructor receives the source's headers object
itself and may mutate it in place; when it does, `mergeHeaders` builds a
fresh object and the source's object is untouched. -/
structure CopyResult (V : Type) where
  fetcher : FetcherModel V
  sourceHeadersAfter : StrDict

instance (V : Type) : Inhabited (CopyResult V) := ⟨⟨default, []⟩⟩

/-- `a.copy(rec)` with the aliasing effect made explicit. -/
def copyF {V : Type} (a : FetcherModel V) (rec : FetcherRec V) :
    Except JsErr (CopyResult V) :=
  (construct (a.ref + 1) (copyRec a rec)).map (fun f =>
    { fetcher := f
      sourceHeadersAfter :=
        if rec.headers.isSome then a.options.headers else f.options.headers })

/-- The fullUrl of a freshly constructed descriptor, when construction
succeeds. -/
def fullUrlOfRec {V : Type} (rec : FetcherRec V) : Option String :=
  (construct 0 rec).toOption.map (fun f => f.fullUrl)

/-! ## The TypeScript plugin chain (packages/fetch-builder/src/PluginManager.ts)

A stage is duck-typed over three optional capabilities.  The promise chains
built by `PluginManager` resolve strictly in registration order in the
single-threaded model, so each fold below is the synchronous meaning of the
corresponding `result.then(...)` loop. -/

/-- The declared expected result types of a request. -/
inductive RequestType where
  | text
  | json
  | arrayBuffer
  | blob
  | formData
deriving DecidableEq

/-- A raw response from the fetch primitive: status, statusText and the body
readable by `text()`. -/
structure RespM where
  status : Nat
  statusText : String := ""
  body : String := ""
deriving DecidableEq

/-- The `RequestOptionsExtra` record handed to the stages (the
`FetcherResponse` instance itself at runtime). -/
structure ExtraM where
  id : String := "0"
  url : String := ""
  type : RequestType := RequestType.text
  timeout : Nat := 20000
  method : Option String := Option.none
  body : Option String := Option.none

/-- `FetcherResponse.toString`, used when the extra record is concatenated
into an error message. -/
def extraToString (e : ExtraM) : String :=
  "#" ++ e.id ++ " " ++ (e.method.getD "GET") ++ " " ++ e.url

/-- A duck-typed plugin: each capability is optional, and a present
capability may still produce an absent result (resolve to undefined). -/
structure PluginM where
  updateOptions : Option (ExtraM → Option ExtraM) := Option.none
  fetch : Option (ExtraM → Option RespM) := Option.none
  responseData : Option (RespM → ExtraM → Except JsErr (Option String)) := Option.none

/-- What a single stage contributes to the fetch chain: `none` when the stage
has no fetch capability or its capability resolves to undefined. -/
def stageFetch (p : PluginM) (extra : ExtraM) : Option RespM :=
  match p.fetch with
  | some f => f extra
  | Option.none => Option.none

/-- The accumulator loop of `PluginManager.fetch`: plugins without the
capability are skipped, and a plugin is dispatched only while the
accumulated result is still undefined. -/
def pmFetchStep (extra : ExtraM) (acc : Option RespM) (p : PluginM) :
    Option RespM :=
  match p.fetch with
  | Option.none => acc
  | some f =>
      match acc with
      | some r => some r
      | Option.none => f extra

def pmFetchAcc (plugins : List PluginM) (extra : ExtraM) : Option RespM :=
  plugins.foldl (pmFetchStep extra) Option.none

/-- `PluginManager.fetch`: the first non-absent response wins; if the whole
chain leaves the result undefined, an Error is thrown instead of returning
the absent value. -/
def pmFetch (plugins : List PluginM) (extra : ExtraM) : Except JsErr RespM :=
  match pmFetchAcc plugins extra with
  | some r => Except.ok r
  | Option.none =>
      Except.error (JsErr.configError ("Need FetchPlugin" ++ extraToString extra))

/-! ## HttpError (packages/fetch-builder/src/HttpError.ts) and the
error-detection stage (plugins/ErrorPlugin.ts) -/

/-- The structured server-error payload parsed from an error body. -/
structure ServerErrorInfo where
  code : Option String := Option.none
  id : Option String := Option.none
  userMessage : Option String := Option.none
deriving DecidableEq

/-- The observable fields of an HttpError instance.  The request snapshot
fields are the ones `toJSON` derives from the stored extra record. -/
structure HttpErrorM where
  message : String
  status : Option Nat
  id : String
  code : Option String
  userMessage : Option String
  requestId : String
  requestUrl : String
  requestMethod : String
  requestBody : Option String
deriving DecidableEq

/-- The HttpError constructor in the branch used by `ErrorPlugin` (no parent
error, a response and a serverInfo present): the message falls back to
`unknown`, the status is the response status when non-zero, the id falls
back to a client-generated `cli-` timestamp id, and the originating request
record is snapshotted.  `now` is the external clock. -/
def mkHttpErrorFromResponse (now : Nat) (extra : ExtraM) (r : RespM)
    (info : ServerErrorInfo) : HttpErrorM :=
  { message := if r.statusText = "" then "unknown" else r.statusText
    status := if r.status = 0 then Option.none else some r.status
    id := jsOr info.id ("cli-" ++ toString now)
    code := info.code
    userMessage := info.userMessage
    requestId := extra.id
    requestUrl := extra.url
    requestMethod := extra.method.getD "GET"
    requestBody := extra.body }

/-- Conversion of an HttpError value into the error type of the chain. -/
def HttpErrorM.toErr (e : HttpErrorM) : JsErr :=
  JsErr.httpError e.status e.id e.code e.userMessage e.message

/-- `ErrorPlugin.responseData`: statuses below 400 contribute nothing to the
chain; otherwise the body text is read, parsed with JSON.parse (an external
collaborator, passed as `parse`; a parse failure rejects with the parser's
own SyntaxError) and an HttpError built from the response and the parsed
payload is thrown. -/
def errorPluginResponseData (parse : String → Except Unit ServerErrorInfo)
    (now : Nat) (r : RespM) (extra : ExtraM) : Except JsErr (Option String) :=
  if r.status < 400 then Except.ok Option.none
  else
    match parse r.body with
    | Except.ok info =>
        Except.error (mkHttpErrorFromResponse now extra r info).toErr
    | Except.error _ => Except.error JsErr.parseError

/-! ## FetcherResponse (packages/fetch-builder/src/FetcherResponse.ts)

The handle's concurrency-relevant state: the result cache, the cancellation
controller generation, the set of aborted controllers, the number of
physical operations started, and the owning request map entry.  A dispatch
call (`result`) synchronously checks and sets the cache before any
asynchronous step runs, which is what the state machine captures: promise
identities are modelled as the index of the operation that created them. -/

structure FetcherResponseM where
  key : String
  requestMap : List (String × Nat)
  cache : Option Nat := Option.none
  acId : Nat := 0
  aborted : List Nat := []
  started : Nat := 0

/-- One call of `FetcherResponse.result`: a present cache is returned
unchanged and nothing else happens; otherwise the current controller is
aborted and replaced, a new physical operation starts, and its promise is
stored in the cache.  The returned number is the promise identity. -/
def frResult (st : FetcherResponseM) : FetcherResponseM × Nat :=
  match st.cache with
  | some p => (st, p)
  | Option.none =>
      let p := st.started
      ({ st with
          cache := some p
          acId := st.acId + 1
          aborted := st.aborted ++ [st.acId]
          started := st.started + 1 }, p)

/-- `FetcherResponse.reset`: aborts the current controller and clears the
cache; the request map is untouched. -/
def frReset (st : FetcherResponseM) : FetcherResponseM :=
  { st with aborted := st.aborted ++ [st.acId], cache := Option.none }

/-- `FetcherResponse.abort`: identical body to `reset`. -/
def frAbort (st : FetcherResponseM) : FetcherResponseM :=
  { st with aborted := st.aborted ++ [st.acId], cache := Option.none }

/-- `FetcherResponse.destructor`: aborts the current controller and deletes
the handle's key from the owning request map; the cache field is not
touched. -/
def frDestructor (st : FetcherResponseM) : FetcherResponseM :=
  { st with
      aborted := st.aborted ++ [st.acId]
      requestMap := st.requestMap.filter (fun p => p.1 != st.key) }

/-- The operations of a handle that touch its state. -/
inductive FrOp where
  | result
  | reset
  | abort
  | destructor
deriving DecidableEq

/-- Uniform step function over the handle operations. -/
def frStep : FrOp → FetcherResponseM → FetcherResponseM
  | FrOp.result, st => (frResult st).1
  | FrOp.reset, st => frReset st
  | FrOp.abort, st => frAbort st
  | FrOp.destructor, st => frDestructor st

/-! ## The caching Flow `Fetcher.fetch` (the unnamed source with the
`cacheable` field), cited next to `FetcherResponse.result` by the
de-duplication claim. -/

structure Fetcher04St where
  resultCache : Option Nat := Option.none
  cacheable : Bool
  started : Nat := 0

/-- `Fetcher.fetch()` without an override record: a present `_result` is
returned as is; otherwise a new physical operation starts and its promise is
stored only when the descriptor is cacheable. -/
def f04Fetch (st : Fetcher04St) : Fetcher04St × Nat :=
  match st.resultCache with
  | some p => (st, p)
  | Option.none =>
      let p := st.started
      ({ st with
          started := st.started + 1
          resultCache := if st.cacheable then some p else Option.none }, p)

/-! ## The TypeScript `Fetcher` request-identity map
(packages/fetch-builder/src/Fetcher.ts)

`baseUrl` is a list of (mask, base) pairs; `RegExp.test` is the external
collaborator modelled as the mask predicate.  Handles are identified by the
allocation counter `nextId` (each `new FetcherResponse` yields a fresh
identity). -/

structure FetcherTsSt where
  baseUrl : List ((String → Bool) × String)
  requestMap : List (String × Nat) := []
  nextId : Nat := 0

/-- `Fetcher.fullUrl`: the base of the first matching mask (or the empty
string) prepended to the url. -/
def fullUrlTs (st : FetcherTsSt) (url : String) : String :=
  match st.baseUrl.find? (fun p => p.1 url) with
  | some p => p.2 ++ url
  | Option.none => "" ++ url

/-- `Fetcher.request`: the map key is the method joined with the RAW url
argument by a dot; a mapped handle is returned as is, otherwise a fresh
handle (which stores the resolved `fullUrl`) is created and mapped. -/
def requestTs (st : FetcherTsSt) (method url : String) : FetcherTsSt × Nat :=
  let key := method ++ "." ++ url
  match st.requestMap.find? (fun p => p.1 == key) with
  | some p => (st, p.2)
  | Option.none =>
      ({ st with
          requestMap := st.requestMap ++ [(key, st.nextId)]
          nextId := st.nextId + 1 }, st.nextId)

/-- `Fetcher.get`. -/
def getTs (st : FetcherTsSt) (url : String) : FetcherTsSt × Nat :=
  requestTs st "GET" url

/-- `Fetcher.post`. -/
def postTs (st : FetcherTsSt) (url : String) : FetcherTsSt × Nat :=
  requestTs st "POST" url

/-- `Fetcher.put`. -/
def putTs (st : FetcherTsSt) (url : String) : FetcherTsSt × Nat :=
  requestTs st "PUT" url

/-- `Fetcher.delete`. -/
def deleteTs (st : FetcherTsSt) (url : String) : FetcherTsSt × Nat :=
  requestTs st "DELETE" url

/-- `Fetcher.patch`. -/
def patchTs (st : FetcherTsSt) (url : String) : FetcherTsSt × Nat :=
  requestTs st "PATCH" url

/-! ## Lemmas about the template renderer -/

/-- When every placeholder key is truthy in `params`, the renderer succeeds
and computes exactly the specification-level substitution, with the consumed
keys removed from the working copy. -/
theorem renderToks_ok_of_truthy (params : StrDict) :
    ∀ (ts : List Tok) (np : StrDict),
      (∀ k ∈ phKeys ts, isTruthy (objGet params k) = true) →
      renderToks ts params np =
        Except.ok (renderSpec ts params, removeKeys np (phKeys ts)) := by
  intro ts
  induction ts with
  | nil => intro np _; simp [renderToks, renderSpec, phKeys, removeKeys]
  | cons t ts ih =>
      intro np h
      cases t with
      | lit c =>
          have hts : ∀ k ∈ phKeys ts, isTruthy (objGet params k) = true := by
            intro k hk; exact h k (by simpa [phKeys] using hk)
          simp [renderToks, renderSpec, phKeys, ih np hts, Except.map]
      | ph k =>
          have hk : isTruthy (objGet params k) = true := h k (by simp [phKeys])
          have hts : ∀ k2 ∈ phKeys ts, isTruthy (objGet params k2) = true := by
            intro k2 hk2; exact h k2 (by simp [phKeys, hk2])
          cases hv : objGet params k with
          | none => rw [hv] at hk; simp [isTruthy] at hk
          | some v =>
              have hv' : v ≠ "" := by
                rw [hv] at hk; simpa [isTruthy] using hk
              simp [renderToks, renderSpec, phKeys, hv, hv',
                ih (objDelete np k) hts, removeKeys, Except.map]

/-- If the renderer succeeds, every placeholder key was truthy. -/
theorem renderToks_truthy_of_ok (params : StrDict) :
    ∀ (ts : List Tok) (np : StrDict) (x : String × StrDict),
      renderToks ts params np = Except.ok x →
      ∀ k ∈ phKeys ts, isTruthy (objGet params k) = true := by
  intro ts
  induction ts with
  | nil => intro np x _ k hk; simp [phKeys] at hk
  | cons t ts ih =>
      intro np x hx k hk
      cases t with
      | lit c =>
          simp only [renderToks] at hx
          cases hr : renderToks ts params np with
          | error e => rw [hr] at hx; simp [Except.map] at hx
          | ok y =>
              exact ih np y hr k (by simpa [phKeys] using hk)
      | ph k2 =>
          cases hv : objGet params k2 with
          | none => simp [renderToks, hv] at hx
          | some v =>
              by_cases hv' : v = ""
              · simp [renderToks, hv, hv'] at hx
              · simp only [renderToks, hv, if_neg hv'] at hx
                rcases (by simpa [phKeys] using hk : k = k2 ∨ k ∈ phKeys ts)
                  with hk1 | hk1
                · subst hk1; simp [hv, isTruthy, hv']
                · cases hr : renderToks ts params (objDelete np k2) with
                  | error e => rw [hr] at hx; simp [Except.map] at hx
                  | ok y => exact ih (objDelete np k2) y hr k hk1

/-- A renderer failure is always a MissingParameterError naming a placeholder
key whose value is absent or empty. -/
theorem renderToks_error_missing (params : StrDict) :
    ∀ (ts : List Tok) (np : StrDict) (e : JsErr),
      renderToks ts params np = Except.error e →
      ∃ k, e = JsErr.missingParam k ∧ k ∈ phKeys ts ∧
        isTruthy (objGet params k) = false := by
  intro ts
  induction ts with
  | nil => intro np e he; simp [renderToks] at he
  | cons t ts ih =>
      intro np e he
      cases t with
      | lit c =>
          simp only [renderToks] at he
          cases hr : renderToks ts params np with
          | error e2 =>
              rw [hr] at he
              simp only [Except.map, Except.error.injEq] at he
              subst he
              rcases ih np e2 hr with ⟨k, hk1, hk2, hk3⟩
              exact ⟨k, hk1, by simp [phKeys, hk2], hk3⟩
          | ok y => rw [hr] at he; simp [Except.map] at he
      | ph k2 =>
          cases hv : objGet params k2 with
          | none =>
              simp only [renderToks, hv, Except.error.injEq] at he
              subst he
              exact ⟨k2, rfl, by simp [phKeys], by simp [hv, isTruthy]⟩
          | some v =>
              by_cases hv' : v = ""
              · simp only [renderToks, hv, if_pos hv', Except.error.injEq] at he
                subst he
                exact ⟨k2, rfl, by simp [phKeys], by simp [hv, isTruthy, hv']⟩
              · simp only [renderToks, hv, if_neg hv'] at he
                cases hr : renderToks ts params (objDelete np k2) with
                | error e2 =>
                    rw [hr] at he
                    simp only [Except.map, Except.error.injEq] at he
                    subst he
                    rcases ih (objDelete np k2) e2 hr with ⟨k, hk1, hk2, hk3⟩
                    exact ⟨k, hk1, by simp [phKeys, hk2], hk3⟩
                | ok y => rw [hr] at he; simp [Except.map] at he

/-! ## Lemmas about copy/construct -/

/-- The headers object content after constructing from a copy record without
an override headers field: the source's headers object, with the urlencoded
Content-Type assigned when the effective body is a URLSearchParams value and
no truthy Content-Type is present. -/
theorem mkHeaders_copyRec_none {V : Type} (a : FetcherModel V) (o : FetcherRec V)
    (ho : o.headers = Option.none) :
    mkHeaders (copyRec a o) =
      (if bodyIsUSP (o.body.getD a.options.body)
          && !(isTruthy (objGet a.options.headers "Content-Type")) then
        objSet a.options.headers "Content-Type" ctFormUrlencoded
      else a.options.headers) := by
  simp [mkHeaders, copyRec, ho]

/-! ## Claim C1 -/

/-- Claim C1: for every descriptor `a`, override `o` whose postProcess is
`f`, and successful copy `b`, the copied descriptor's postProcess is the
composition `x => f(a.postProcess(x))`. -/
theorem copy_postProcess_composes {V : Type} (a : FetcherModel V)
    (o : FetcherRec V) (f : V → V) (r : CopyResult V)
    (hf : o.postProcess = some f) (h : copyF a o = Except.ok r) (x : V) :
    r.fetcher.postProcess x = f (a.postProcess x) := by
  unfold copyF construct at h
  cases hc : computeFullUrl (copyRec a o) with
  | error e => rw [hc] at h; simp [Except.map] at h
  | ok fu =>
      rw [hc] at h
      simp only [Except.map, Except.ok.injEq] at h
      subst h
      simp [mkFetcher, copyRec, hf]

def p1fn (v : Int) : Int := v + 1

def p2fn (v : Int) : Int := v + 2

def c1a : FetcherModel Int :=
  (construct 0 { postProcess := some p1fn }).toOption.getD default

def c1o : FetcherRec Int := { postProcess := some p2fn }

def c1r : CopyResult Int := (copyF c1a c1o).toOption.getD default

/-- Witness for C1 at the spec's concrete instance: `p1(v)=v+1`,
`p2(v)=v+2`, `b.postProcess(1) = 4`. -/
theorem copy_postProcess_composes_witness :
    c1o.postProcess = some p2fn ∧ copyF c1a c1o = Except.ok c1r ∧
    c1r.fetcher.postProcess 1 = p2fn (c1a.postProcess 1) ∧
    c1r.fetcher.postProcess 1 = 4 :=
  ⟨rfl, rfl, copy_postProcess_composes c1a c1o p2fn c1r rfl rfl 1, rfl⟩

/-! ## Claim C2 -/

/-- The condition under which `copy` mutates the source descriptor's headers
object: the override carries no headers (so the constructor receives the
source's headers object itself), the effective body is a URLSearchParams
value, and the source headers carry no truthy Content-Type. -/
def copyMutatesHeaders {V : Type} (a : FetcherModel V) (o : FetcherRec V) : Prop :=
  o.headers = Option.none ∧
  bodyIsUSP (o.body.getD a.options.body) = true ∧
  isTruthy (objGet a.options.headers "Content-Type") = false

instance {V : Type} (a : FetcherModel V) (o : FetcherRec V) :
    Decidable (copyMutatesHeaders a o) := by
  unfold copyMutatesHeaders; infer_instance

def c2a : FetcherModel Unit :=
  (construct 0 { headers := some [("X", "1")] }).toOption.getD default

def c2o : FetcherRec Unit :=
  { body := some (BodyVal.urlSearchParams [("q", "1")]) }

/-- Counterexample to C2 as stated: copying with an override whose body is a
URLSearchParams value mutates the source descriptor's headers object (it
gains a Content-Type entry). -/
theorem copy_mutates_source_headers_on_urlsearchparams :
    (copyF c2a c2o).toOption.map (fun r => r.sourceHeadersAfter) =
      some [("X", "1"),
            ("Content-Type", "application/x-www-form-urlencoded;charset=utf-8")]
    ∧ c2a.options.headers = [("X", "1")]
    ∧ (copyF c2a c2o).toOption.map (fun r => r.sourceHeadersAfter) ≠
        some c2a.options.headers := by decide

/-- Claim C2 (amended): `copy` returns a freshly-allocated descriptor, and
the source's fields are unchanged, except that when the override carries no
headers, the effective body is a URLSearchParams value and the source's
headers lack a truthy Content-Type, the source's headers object gains the
urlencoded Content-Type entry (the only mutation `copy` can perform). -/
theorem copy_preserves_source_fields {V : Type} (a : FetcherModel V)
    (o : FetcherRec V) (r : CopyResult V) (h : copyF a o = Except.ok r) :
    r.fetcher.ref ≠ a.ref ∧
    (¬ copyMutatesHeaders a o → r.sourceHeadersAfter = a.options.headers) ∧
    (copyMutatesHeaders a o →
      r.sourceHeadersAfter =
        objSet a.options.headers "Content-Type" ctFormUrlencoded) := by
  unfold copyF construct at h
  cases hc : computeFullUrl (copyRec a o) with
  | error e => rw [hc] at h; simp [Except.map] at h
  | ok fu =>
      rw [hc] at h
      simp only [Except.map, Except.ok.injEq] at h
      subst h
      refine ⟨by simp [mkFetcher], ?_, ?_⟩
      · intro hnm
        cases ho : o.headers with
        | some hset => simp [ho]
        | none =>
            simp only [ho, Option.isSome_none, Bool.false_eq_true, if_false,
              mkFetcher, mkOptions, mkHeaders_copyRec_none a o ho]
            cases hb : bodyIsUSP (o.body.getD a.options.body) with
            | false => simp [hb]
            | true =>
                cases hct : isTruthy (objGet a.options.headers "Content-Type") with
                | false => exact absurd ⟨ho, hb, hct⟩ hnm
                | true => simp [hb, hct]
      · intro hm
        rcases hm with ⟨ho, hb, hct⟩
        simp only [ho, Option.isSome_none, Bool.false_eq_true, if_false,
          mkFetcher, mkOptions, mkHeaders_copyRec_none a o ho]
        simp [hb, hct]

def c2a2 : FetcherModel Unit :=
  (construct 0 { headers := some [("X", "1")] }).toOption.getD default

def c2o2 : FetcherRec Unit := { method := some "POST" }

def c2r2 : CopyResult Unit := (copyF c2a2 c2o2).toOption.getD default

/-- Witness for the amended C2: a plain override (no URLSearchParams body)
leaves the source's headers object untouched and yields a fresh object. -/
theorem copy_preserves_source_fields_witness :
    copyF c2a2 c2o2 = Except.ok c2r2 ∧
    ¬ copyMutatesHeaders c2a2 c2o2 ∧
    c2r2.fetcher.ref ≠ c2a2.ref ∧
    c2r2.sourceHeadersAfter = c2a2.options.headers :=
  ⟨rfl, by decide, (copy_preserves_source_fields c2a2 c2o2 c2r2 rfl).1,
    (copy_preserves_source_fields c2a2 c2o2 c2r2 rfl).2.1 (by decide)⟩

/-! ## Claim C3 -/

/-- Claim C3 (evidence of the divergence): in the plain-mapping
representation the merge is right-biased per entry as claimed and documented,
but in the Headers representation the code feeds every entry to
`Headers.append`, which combines with the existing value instead of
overwriting it, so the merged header `a` reads `1, 2` rather than `2`. -/
theorem mergeHeaders_headers_mode_appends :
    headersGet
        (mergeHeadersH [some [("a", "1"), ("c", "1")],
                        some [("a", "2"), ("b", "1")]]) "a" = some "1, 2"
    ∧ mergeHeadersPlain [some [("a", "1"), ("c", "1")],
                         some [("a", "2"), ("b", "1")]]
        = [("a", "2"), ("c", "1"), ("b", "1")]
    ∧ objGet (mergeHeadersPlain [some [("a", "1"), ("c", "1")],
                                 some [("a", "2"), ("b", "1")]]) "a" = some "2"
    ∧ headersGet
        (mergeHeadersH [some [("a", "1"), ("c", "1")],
                        some [("a", "2"), ("b", "1")]]) "a" ≠ some "2" := by
  decide

/-! ## Claim C4 -/

def exRec1 : FetcherRec Unit :=
  { baseUrl := some "/api", url := some "/user/:id/:id2",
    params := some [("id", "1"), ("id2", "2")],
    serializeParams := some (createSerializeParams qsStringify) }

def exRec2 : FetcherRec Unit :=
  { baseUrl := some "/api", url := some "/user",
    params := some [("id", "1"), ("id2", "2")],
    serializeParams := some (createSerializeParams qsStringify) }

/-- Claim C4: with a value for every placeholder key, the serializer replaces
each placeholder, removes the consumed keys from the working copy, and
appends the stringified leftovers as a question-mark-prefixed query string
only when non-empty; in particular the two concrete descriptors of the spec
produce `/api/user/1/2` (no query string) and `/api/user?id=1&id2=2`. -/
theorem serializeParams_substitutes_and_appends_query :
    (∀ (stringify : StrDict → String) (url : String) (params : StrDict),
      (∀ k ∈ placeholders url.toList, isTruthy (objGet params k) = true) →
      createSerializeParams stringify url params =
        Except.ok (renderSpec (tokenize url.toList) params ++
          (if stringify (removeKeys params (placeholders url.toList)) = ""
           then ""
           else "?" ++ stringify (removeKeys params (placeholders url.toList)))))
    ∧ fullUrlOfRec exRec1 = some "/api/user/1/2"
    ∧ fullUrlOfRec exRec2 = some "/api/user?id=1&id2=2" := by
  refine ⟨?_, by decide, by decide⟩
  intro stringify url params h
  have hr := renderToks_ok_of_truthy params (tokenize url.toList) params
    (by simpa [placeholders] using h)
  unfold createSerializeParams regExpMapString
  rw [hr]
  simp [Except.map, placeholders]

/-- Witness for C4's universally quantified part at a concrete template with
one substituted placeholder and one leftover query parameter. -/
theorem serializeParams_substitutes_and_appends_query_witness :
    (∀ k ∈ placeholders "/user/:id".toList,
      isTruthy (objGet [("id", "5"), ("q", "7")] k) = true)
    ∧ createSerializeParams qsStringify "/user/:id" [("id", "5"), ("q", "7")] =
        Except.ok (renderSpec (tokenize "/user/:id".toList) [("id", "5"), ("q", "7")] ++
          (if qsStringify (removeKeys [("id", "5"), ("q", "7")]
                (placeholders "/user/:id".toList)) = ""
           then ""
           else "?" ++ qsStringify (removeKeys [("id", "5"), ("q", "7")]
                (placeholders "/user/:id".toList))))
    ∧ (createSerializeParams qsStringify "/user/:id"
        [("id", "5"), ("q", "7")]).toOption = some "/user/5?q=7" :=
  ⟨by decide,
   serializeParams_substitutes_and_appends_query.1 qsStringify "/user/:id"
     [("id", "5"), ("q", "7")] (by decide),
   by decide⟩

/-! ## Claim C5 -/

/-- Claim C5: a template placeholder with no corresponding (truthy) parameter
makes the serializer fail with a MissingParameterError naming a missing
placeholder key; no URL is produced. -/
theorem serializeParams_missing_placeholder_fails
    (stringify : StrDict → String) (url : String) (params : StrDict) (k : String)
    (hk : k ∈ placeholders url.toList) (hmiss : objGet params k = Option.none) :
    ∃ kBad, createSerializeParams stringify url params =
        Except.error (JsErr.missingParam kBad) ∧
      kBad ∈ placeholders url.toList ∧
      isTruthy (objGet params kBad) = false := by
  cases hr : renderToks (tokenize url.toList) params params with
  | ok y =>
      have hko := renderToks_truthy_of_ok params (tokenize url.toList) params y hr k
        (by simpa [placeholders] using hk)
      rw [hmiss] at hko
      simp [isTruthy] at hko
  | error e =>
      rcases renderToks_error_missing params (tokenize url.toList) params e hr with
        ⟨kb, he, hmem, hfal⟩
      subst he
      refine ⟨kb, ?_, by simpa [placeholders] using hmem, hfal⟩
      unfold createSerializeParams regExpMapString
      rw [hr]
      simp [Except.map]

/-- Witness for C5: the template `/user/:id` with an empty parameter mapping
fails naming the key `id`. -/
theorem serializeParams_missing_placeholder_fails_witness :
    "id" ∈ placeholders "/user/:id".toList
    ∧ objGet [] "id" = Option.none
    ∧ (∃ kBad, createSerializeParams qsStringify "/user/:id" [] =
          Except.error (JsErr.missingParam kBad) ∧
        kBad ∈ placeholders "/user/:id".toList ∧
        isTruthy (objGet [] kBad) = false) :=
  ⟨by decide, rfl,
   serializeParams_missing_placeholder_fails qsStringify "/user/:id" [] "id"
     (by decide) rfl⟩

/-! ## Claim C6 -/

/-- Once a response has been produced, the rest of the chain leaves it
untouched (the remaining stages are dispatched for nothing). -/
theorem pmFetchAcc_keeps_some (extra : ExtraM) (r : RespM) :
    ∀ l : List PluginM, l.foldl (pmFetchStep extra) (some r) = some r := by
  intro l
  induction l with
  | nil => rfl
  | cons p l ih =>
      have hstep : pmFetchStep extra (some r) p = some r := by
        cases h : p.fetch <;> simp [pmFetchStep, h]
      simp [List.foldl, hstep, ih]

/-- A single step from an undefined accumulator contributes exactly what the
stage contributes. -/
theorem pmFetchStep_none (extra : ExtraM) (p : PluginM) :
    pmFetchStep extra Option.none p = stageFetch p extra := by
  cases h : p.fetch <;> simp [pmFetchStep, stageFetch, h]

/-- A prefix of stages that all contribute nothing leaves the accumulator
undefined. -/
theorem pmFetchAcc_none_of_all_none (extra : ExtraM) :
    ∀ l : List PluginM, (∀ q ∈ l, stageFetch q extra = Option.none) →
      l.foldl (pmFetchStep extra) Option.none = Option.none := by
  intro l
  induction l with
  | nil => intro _; rfl
  | cons p l ih =>
      intro h
      have hp : stageFetch p extra = Option.none := h p (by simp)
      have hl : ∀ q ∈ l, stageFetch q extra = Option.none := by
        intro q hq; exact h q (by simp [hq])
      simp [List.foldl, pmFetchStep_none, hp, ih hl]

/-- Claim C6: the chain's fetch is queried in registration order and the
first stage producing a non-absent response wins, the stages after it having
no influence on the outcome; when every stage leaves the result absent, the
chain fails with the configuration error instead of returning the absent
value. -/
theorem pmFetch_first_wins_or_config_error :
    (∀ (pre : List PluginM) (p : PluginM) (post : List PluginM)
        (extra : ExtraM) (r : RespM),
      (∀ q ∈ pre, stageFetch q extra = Option.none) →
      stageFetch p extra = some r →
      pmFetch (pre ++ p :: post) extra = Except.ok r)
    ∧ (∀ (plugins : List PluginM) (extra : ExtraM),
      (∀ q ∈ plugins, stageFetch q extra = Option.none) →
      pmFetch plugins extra =
        Except.error
          (JsErr.configError ("Need FetchPlugin" ++ extraToString extra))) := by
  constructor
  · intro pre p post extra r hpre hp
    have hacc : pmFetchAcc (pre ++ p :: post) extra = some r := by
      unfold pmFetchAcc
      rw [List.foldl_append, pmFetchAcc_none_of_all_none extra pre hpre]
      simp [List.foldl, pmFetchStep_none, hp, pmFetchAcc_keeps_some]
    simp [pmFetch, hacc]
  · intro plugins extra h
    have hacc : pmFetchAcc plugins extra = Option.none :=
      pmFetchAcc_none_of_all_none extra plugins h
    simp [pmFetch, hacc]

def c6plgNone : PluginM := {}

def c6plgAbsent : PluginM := { fetch := some (fun _ => Option.none) }

def c6resp : RespM := { status := 200, statusText := "OK", body := "hi" }

def c6plgHit : PluginM := { fetch := some (fun _ => some c6resp) }

def c6plgOther : PluginM :=
  { fetch := some (fun _ => some { status := 500, statusText := "other" }) }

def c6extra : ExtraM := { id := "7", url := "/x", method := some "GET" }

/-- Witness for C6: a capability-less stage and an absent-returning stage are
passed over, the first responding stage wins even with a later responding
stage registered, and an all-absent chain raises the configuration error. -/
theorem pmFetch_first_wins_or_config_error_witness :
    (∀ q ∈ [c6plgNone, c6plgAbsent], stageFetch q c6extra = Option.none)
    ∧ stageFetch c6plgHit c6extra = some c6resp
    ∧ pmFetch ([c6plgNone, c6plgAbsent] ++ c6plgHit :: [c6plgOther]) c6extra =
        Except.ok c6resp
    ∧ pmFetch [c6plgNone, c6plgAbsent] c6extra =
        Except.error
          (JsErr.configError ("Need FetchPlugin" ++ extraToString c6extra)) :=
  ⟨by decide, rfl,
   pmFetch_first_wins_or_config_error.1 [c6plgNone, c6plgAbsent] c6plgHit
     [c6plgOther] c6extra c6resp (by decide) rfl,
   pmFetch_first_wins_or_config_error.2 [c6plgNone, c6plgAbsent] c6extra
     (by decide)⟩

/-! ## Claim C7 -/

def c7parse (s : String) : Except Unit ServerErrorInfo :=
  if s = "code:42" then Except.ok { code := some "42" } else Except.error ()

def c7resp304 : RespM := { status := 304, statusText := "Not Modified", body := "" }

def c7extra : ExtraM := { id := "1", url := "/u" }

/-- Counterexample to C7 as stated: a 304 response is not in the 2xx success
range, yet the error-detection stage contributes nothing and raises no
HttpError, because the code's threshold is status below 400, not outside
2xx. -/
theorem errorPlugin_ignores_non2xx_below_400 :
    ¬ (200 ≤ c7resp304.status ∧ c7resp304.status < 300)
    ∧ errorPluginResponseData c7parse 0 c7resp304 c7extra =
        Except.ok Option.none :=
  ⟨by decide, rfl⟩

/-- Claim C7 (amended): for every response with status at least 400 whose
body parses as a structured server-error payload, the stage raises an
HttpError whose status equals the response's status; responses with status
below 400 (in particular every 2xx response) raise nothing. -/
theorem errorPlugin_raises_httpError_above_400
    (parse : String → Except Unit ServerErrorInfo) (now : Nat) (r : RespM)
    (extra : ExtraM) :
    (∀ info : ServerErrorInfo, 400 ≤ r.status → parse r.body = Except.ok info →
      errorPluginResponseData parse now r extra =
        Except.error (mkHttpErrorFromResponse now extra r info).toErr ∧
      (mkHttpErrorFromResponse now extra r info).status = some r.status)
    ∧ (r.status < 400 →
      errorPluginResponseData parse now r extra = Except.ok Option.none) := by
  constructor
  · intro info h4 hp
    have hnl : ¬ r.status < 400 := by omega
    have hnz : ¬ r.status = 0 := by omega
    constructor
    · simp [errorPluginResponseData, hnl, hp]
    · simp [mkHttpErrorFromResponse, hnz]
  · intro hl
    simp [errorPluginResponseData, hl]

def c7resp : RespM := { status := 500, statusText := "ISE", body := "code:42" }

def c7resp204 : RespM := { status := 204, statusText := "No Content", body := "" }

def c7resp101 : RespM :=
  { status := 101, statusText := "Switching Protocols", body := "" }

/-- Witness for the amended C7: a 500 response with a parseable error body
raises an HttpError carrying status 500, while a 204 (2xx) response, a 304
(3xx) response and a 101 (1xx) response raise nothing. -/
theorem errorPlugin_raises_httpError_above_400_witness :
    (400 ≤ c7resp.status)
    ∧ c7parse c7resp.body = Except.ok { code := some "42" }
    ∧ errorPluginResponseData c7parse 0 c7resp c7extra =
        Except.error
          (mkHttpErrorFromResponse 0 c7extra c7resp { code := some "42" }).toErr
    ∧ (mkHttpErrorFromResponse 0 c7extra c7resp { code := some "42" }).status =
        some c7resp.status
    ∧ (200 ≤ c7resp204.status ∧ c7resp204.status < 300)
    ∧ errorPluginResponseData c7parse 0 c7resp204 c7extra =
        Except.ok Option.none
    ∧ (c7resp304.status < 400 ∧
        errorPluginResponseData c7parse 0 c7resp304 c7extra =
          Except.ok Option.none)
    ∧ (c7resp101.status < 400 ∧
        errorPluginResponseData c7parse 0 c7resp101 c7extra =
          Except.ok Option.none) :=
  ⟨by decide, rfl,
   ((errorPlugin_raises_httpError_above_400 c7parse 0 c7resp c7extra).1
     { code := some "42" } (by decide) rfl).1,
   ((errorPlugin_raises_httpError_above_400 c7parse 0 c7resp c7extra).1
     { code := some "42" } (by decide) rfl).2,
   by decide,
   (errorPlugin_raises_httpError_above_400 c7parse 0 c7resp204 c7extra).2
     (by decide),
   ⟨by decide,
    (errorPlugin_raises_httpError_above_400 c7parse 0 c7resp304 c7extra).2
      (by decide)⟩,
   ⟨by decide,
    (errorPlugin_raises_httpError_above_400 c7parse 0 c7resp101 c7extra).2
      (by decide)⟩⟩

/-! ## Claim C8 -/

/-- Claim C8: while a handle is in-flight or settled (its cache holds a
promise), every further dispatch call returns the same cached outcome with no
state change and no new physical operation; from an idle state, two dispatch
calls issued before any resolution start exactly one physical operation and
observe the same promise.  The same de-duplication holds for the cacheable
Flow `Fetcher.fetch`. -/
theorem dispatch_deduplicates :
    (∀ (st : FetcherResponseM) (p : Nat), st.cache = some p →
      frResult st = (st, p))
    ∧ (∀ st : FetcherResponseM, st.cache = Option.none →
      (frResult ((frResult st).1)).2 = (frResult st).2 ∧
      (frResult ((frResult st).1)).1 = (frResult st).1 ∧
      ((frResult st).1).started = st.started + 1)
    ∧ (∀ st4 : Fetcher04St, st4.cacheable = true →
      st4.resultCache = Option.none →
      (f04Fetch ((f04Fetch st4).1)).2 = (f04Fetch st4).2 ∧
      (f04Fetch ((f04Fetch st4).1)).1 = (f04Fetch st4).1 ∧
      ((f04Fetch st4).1).started = st4.started + 1) := by
  refine ⟨?_, ?_, ?_⟩
  · intro st p h
    simp [frResult, h]
  · intro st h
    simp [frResult, h]
  · intro st4 hc h
    simp [f04Fetch, h, hc]

def c8settled : FetcherResponseM :=
  { key := "GET./u", requestMap := [("GET./u", 0)], cache := some 7,
    started := 8 }

def c8idle : FetcherResponseM := { key := "GET./u", requestMap := [("GET./u", 0)] }

def c8cacheable : Fetcher04St := { cacheable := true }

/-- Witness for C8 at concrete handles: a settled handle returns its cached
promise unchanged; an idle handle dispatched twice starts one operation and
both calls observe the same promise. -/
theorem dispatch_deduplicates_witness :
    frResult c8settled = (c8settled, 7)
    ∧ ((frResult ((frResult c8idle).1)).2 = (frResult c8idle).2 ∧
       (frResult ((frResult c8idle).1)).1 = (frResult c8idle).1 ∧
       ((frResult c8idle).1).started = c8idle.started + 1)
    ∧ ((f04Fetch ((f04Fetch c8cacheable).1)).2 = (f04Fetch c8cacheable).2 ∧
       (f04Fetch ((f04Fetch c8cacheable).1)).1 = (f04Fetch c8cacheable).1 ∧
       ((f04Fetch c8cacheable).1).started = c8cacheable.started + 1) :=
  ⟨dispatch_deduplicates.1 c8settled 7 rfl,
   dispatch_deduplicates.2.1 c8idle rfl,
   dispatch_deduplicates.2.2 c8cacheable rfl rfl⟩

/-! ## Claim C9 -/

def c9st : FetcherTsSt :=
  { baseUrl := [(fun s => s == "a", "b/"), (fun _ => true, "b")] }

/-- Counterexample to C9 as stated: two urls that resolve to the same full
URL (so the same claimed key of method plus resolved URL) produce two
distinct handles, because the map key uses the raw url argument. -/
theorem request_key_ignores_resolved_url :
    fullUrlTs c9st "a" = fullUrlTs c9st "/a"
    ∧ (getTs ((getTs c9st "a").1) "/a").2 ≠ (getTs c9st "a").2 := by
  decide

/-- If a predicate finds nothing in the first list, searching the
concatenation searches the second list. -/
theorem find?_append_none {α : Type} (p : α → Bool) :
    ∀ (l₁ l₂ : List α), l₁.find? p = Option.none →
      (l₁ ++ l₂).find? p = l₂.find? p := by
  intro l₁
  induction l₁ with
  | nil => intro l₂ _; rfl
  | cons a l ih =>
      intro l₂ h
      cases hp : p a with
      | true => simp [List.find?, hp] at h
      | false =>
          rw [List.find?] at h
          rw [hp] at h
          simp only [List.cons_append, List.find?, hp]
          exact ih l₂ h

/-- Claim C9 (amended): each verb method keys its handle by the request
method plus the RAW url argument (the base-url resolution only affects the
URL stored on the handle, not the key); a repeated call with the same method
and url argument returns the same handle instance and leaves the map
unchanged. -/
theorem request_keyed_by_method_and_raw_url
    (st : FetcherTsSt) (method url : String) :
    requestTs (requestTs st method url).1 method url =
      ((requestTs st method url).1, (requestTs st method url).2) := by
  cases hf : st.requestMap.find? (fun p => p.1 == (method ++ "." ++ url)) with
  | some p => simp [requestTs, hf]
  | none =>
      have hf2 : ((st.requestMap ++ [(method ++ "." ++ url, st.nextId)]).find?
          (fun p => p.1 == (method ++ "." ++ url))) =
          some (method ++ "." ++ url, st.nextId) := by
        rw [find?_append_none _ _ _ hf]
        simp [List.find?]
      simp [requestTs, hf, hf2]

def c9stW : FetcherTsSt := { baseUrl := [(fun _ => true, "/api")] }

/-- Witness for the amended C9: a repeated GET for the same url returns the
same handle on the same state. -/
theorem request_keyed_by_method_and_raw_url_witness :
    getTs ((getTs c9stW "/u").1) "/u" =
      ((getTs c9stW "/u").1, (getTs c9stW "/u").2) :=
  request_keyed_by_method_and_raw_url c9stW "GET" "/u"

/-! ## Claim C10 -/

/-- Claim C10: abort and reset abort the in-flight cancellation controller
and clear the cached result but leave the owning request map untouched; only
the destructor deletes the handle's key from the map (and touches neither
the cache nor other entries); no other operation evicts the entry. -/
theorem abort_reset_preserve_request_map (st : FetcherResponseM) :
    (frAbort st).requestMap = st.requestMap
    ∧ (frAbort st).cache = Option.none
    ∧ st.acId ∈ (frAbort st).aborted
    ∧ (frReset st).requestMap = st.requestMap
    ∧ (frReset st).cache = Option.none
    ∧ st.acId ∈ (frReset st).aborted
    ∧ (frDestructor st).requestMap =
        st.requestMap.filter (fun p => p.1 != st.key)
    ∧ (frDestructor st).cache = st.cache
    ∧ st.acId ∈ (frDestructor st).aborted
    ∧ (∀ op : FrOp, op ≠ FrOp.destructor →
        (frStep op st).requestMap = st.requestMap) := by
  refine ⟨rfl, rfl, by simp [frAbort], rfl, rfl, by simp [frReset], rfl, rfl,
    by simp [frDestructor], ?_⟩
  intro op hop
  cases op with
  | result => cases h : st.cache <;> simp [frStep, frResult, h]
  | reset => rfl
  | abort => rfl
  | destructor => exact absurd rfl hop

def c10st : FetcherResponseM :=
  { key := "GET./x", requestMap := [("GET./x", 0), ("POST./y", 1)],
    cache := some 3, acId := 2 }

/-- Witness for C10 at a concrete handle: abort and reset keep the map entry
and clear the cache, a non-destructor step keeps the map, and the destructor
removes exactly the handle's own entry. -/
theorem abort_reset_preserve_request_map_witness :
    (frAbort c10st).requestMap = c10st.requestMap
    ∧ (frAbort c10st).cache = Option.none
    ∧ (frStep FrOp.reset c10st).requestMap = c10st.requestMap
    ∧ (frDestructor c10st).requestMap =
        c10st.requestMap.filter (fun p => p.1 != c10st.key)
    ∧ c10st.requestMap.filter (fun p => p.1 != c10st.key) = [("POST./y", 1)] :=
  ⟨(abort_reset_preserve_request_map c10st).1,
   (abort_reset_preserve_request_map c10st).2.1,
   (abort_reset_preserve_request_map c10st).2.2.2.2.2.2.2.2.2 FrOp.reset
     (by decide),
   (abort_reset_preserve_request_map c10st).2.2.2.2.2.2.1,
   by decide⟩
